import Mathlib

/-
Verification of the quant/dequant fusion rewrite rules of
lite/core/mir/fusion/quant_dequant_op_fuser.cc (Paddle-Lite).

The C++ source is shallowly embedded: tensors hold exact rational data
(the float arithmetic of the source is modelled exactly over ℚ), operator
descriptors are association lists, the SSA graph is a list of nodes plus a
list of directed edges, and the variable scope is an association list from
names to tensors.  Fallible steps (attribute lookup, scope lookup, fatal
CHECK macros) are modelled with `Except`.
-/

namespace QDF

/-- Fatal failure classes of the rewrite rules: `invariantViolation` models a
failed CHECK / missing required attribute, `lookupError` models a referenced
variable or tensor being absent from storage. -/
inductive Err where
  | invariantViolation
  | lookupError
deriving DecidableEq

/-- Element type of a tensor buffer. -/
inductive Precision where
  | kFloat
  | kInt8
deriving DecidableEq

/-- Typed attribute values of an operator descriptor. -/
inductive AttrValue where
  | aInt (i : Int)
  | aFloat (q : ℚ)
  | aBool (b : Bool)
  | aString (s : String)
  | aIntList (l : List Int)
  | aFloatList (l : List ℚ)
deriving DecidableEq

/-- A tensor: shape, exact numeric buffer, persistable flag and element
type.  Invariant of well-formed states: `data.length` equals the product of
`dims` (the source's `numel()` / `data_size()`). -/
structure Tensor where
  dims : List Int
  data : List ℚ
  persistable : Bool
  precision : Precision
deriving DecidableEq

/-- First-match association-list lookup (keys are strings). -/
def lookup {α : Type} : List (String × α) → String → Option α
  | [], _ => none
  | (k, v) :: rest, key => if k = key then some v else lookup rest key

/-- Variable storage: variable name to tensor. -/
def Scope : Type := List (String × Tensor)

/-- Modelled from the spec: the variable-storage collaborator (`Scope`,
`FindVar`, `GetMutable`) is outside the given source file; §6 specifies
`lookup_tensor(name) -> Tensor`, failing with LookupError if absent — here
`none`, surfaced as `Err.lookupError` by the callers. -/
def Scope.findVar (s : Scope) (name : String) : Option Tensor :=
  lookup s name

/-- Overwrite (shadow) the tensor stored under `name`. -/
def Scope.setVar (s : Scope) (name : String) (t : Tensor) : Scope :=
  (name, t) :: s

/-- An operator descriptor: type tag, named input and output argument
lists, attribute map and per-input quantization-scale map. -/
structure OpInfo where
  type : String
  inputs : List (String × List String)
  outputs : List (String × List String)
  attrs : List (String × AttrValue)
  inputScales : List (String × List ℚ)
deriving DecidableEq

def OpInfo.getAttr (i : OpInfo) (k : String) : Option AttrValue :=
  lookup i.attrs k

def OpInfo.getAttrInt (i : OpInfo) (k : String) : Option Int :=
  match i.getAttr k with
  | some (.aInt n) => some n
  | _ => none

def OpInfo.getAttrFloat (i : OpInfo) (k : String) : Option ℚ :=
  match i.getAttr k with
  | some (.aFloat q) => some q
  | _ => none

def OpInfo.getAttrIntList (i : OpInfo) (k : String) : Option (List Int) :=
  match i.getAttr k with
  | some (.aIntList l) => some l
  | _ => none

def OpInfo.setAttr (i : OpInfo) (k : String) (v : AttrValue) : OpInfo :=
  { i with attrs := (k, v) :: i.attrs }

def OpInfo.setInput (i : OpInfo) (k : String) (vs : List String) : OpInfo :=
  { i with inputs := (k, vs) :: i.inputs }

def OpInfo.setOutput (i : OpInfo) (k : String) (vs : List String) : OpInfo :=
  { i with outputs := (k, vs) :: i.outputs }

def OpInfo.setInputScale (i : OpInfo) (k : String) (s : List ℚ) : OpInfo :=
  { i with inputScales := (k, s) :: i.inputScales }

def OpInfo.getInputScale (i : OpInfo) (k : String) : Option (List ℚ) :=
  lookup i.inputScales k

/-- `OpDescBase::UpdateAllInputs(from, to)`: rename every occurrence of a
variable in every input-argument list. -/
def OpInfo.updateAllInputs (i : OpInfo) (src dst : String) : OpInfo :=
  { i with inputs := i.inputs.map (fun p => (p.1, p.2.map (fun v => if v = src then dst else v))) }

/-- A graph node is either a variable node (name plus is-weight flag) or an
operator node carrying a descriptor. -/
inductive NodeKind where
  | varK (name : String) (is_weight : Bool)
  | opK (info : OpInfo)
deriving DecidableEq

structure Node where
  id : Nat
  kind : NodeKind
deriving DecidableEq

def Node.varName? (n : Node) : Option String :=
  match n.kind with
  | .varK name _ => some name
  | .opK _ => none

def Node.isWeight? (n : Node) : Option Bool :=
  match n.kind with
  | .varK _ w => some w
  | .opK _ => none

def Node.opInfo? (n : Node) : Option OpInfo :=
  match n.kind with
  | .varK _ _ => none
  | .opK info => some info

/-- Apply `f` to the descriptor of an operator node; variable nodes are
unchanged.  The node id is always preserved. -/
def Node.mapOp (f : OpInfo → OpInfo) (n : Node) : Node :=
  match n.kind with
  | .varK _ _ => n
  | .opK info => ⟨n.id, .opK (f info)⟩

/-- The SSA graph: nodes (identified by `Node.id`) and directed edges. -/
structure Graph where
  nodes : List Node
  edges : List (Nat × Nat)
deriving DecidableEq

def findNodeIn : List Node → Nat → Option Node
  | [], _ => none
  | n :: rest, i => if n.id = i then some n else findNodeIn rest i

def Graph.findNode (g : Graph) (i : Nat) : Option Node :=
  findNodeIn g.nodes i

/-- The consumers reachable through outgoing edges of node `i`
(`Node::outlinks`). -/
def Graph.outlinks (g : Graph) (i : Nat) : List Nat :=
  (g.edges.filter (fun e => e.1 == i)).map Prod.snd

def Graph.updateNode (g : Graph) (i : Nat) (f : Node → Node) : Graph :=
  { g with nodes := g.nodes.map (fun n => if n.id = i then f n else n) }

def Graph.addEdge (g : Graph) (a b : Nat) : Graph :=
  { g with edges := g.edges ++ [(a, b)] }

def Graph.addNode (g : Graph) (n : Node) : Graph :=
  { g with nodes := g.nodes ++ [n] }

def removeNodesList (rm : List Nat) : List Node → List Node
  | [] => []
  | n :: rest =>
      if n.id ∈ rm then removeNodesList rm rest else n :: removeNodesList rm rest

def removeEdgesList (rm : List Nat) : List (Nat × Nat) → List (Nat × Nat)
  | [] => []
  | e :: rest =>
      if e.1 ∈ rm ∨ e.2 ∈ rm then removeEdgesList rm rest else e :: removeEdgesList rm rest

/-- Modelled from the spec: `GraphSafeRemoveNodes` lives outside the given
source file; §6 specifies `remove_nodes(graph, set)` removes the given nodes
and all incident edges. -/
def Graph.removeNodes (g : Graph) (rm : List Nat) : Graph :=
  { nodes := removeNodesList rm g.nodes, edges := removeEdgesList rm g.edges }

/-- Lift an optional value into `Except`, failing with `e` when absent. -/
def ofOption {α : Type} (e : Err) : Option α → Except Err α
  | some a => .ok a
  | none => .error e

/-! ### Scale arithmetic (lines 28-62 of the source) -/

/-- `((1 << (bit_length - 1)) - 1)`: the symmetric signed quantization
range for a given bit length. -/
def intRange (bit_length : Int) : Int :=
  2 ^ (bit_length - 1).toNat - 1

/-- `static_cast<int8_t>` of a float value: truncation toward zero. -/
def ratTrunc (x : ℚ) : ℤ :=
  if 0 ≤ x then ⌊x⌋ else ⌈x⌉

/-- The per-element operation of `QuantizeTensorInPlace`:
`static_cast<T>(std::round(temp_data[i] / scale))`, with the int8 cast
modelled as the exact integer (representability is a precondition). -/
def quantRound (scale x : ℚ) : ℤ :=
  round (x / scale)

/-- `GetWeightArgname`: operator type to conventional weight argument. -/
def GetWeightArgname (op_type : String) : String :=
  if op_type = "conv2d" ∨ op_type = "depthwise_conv2d" ∨ op_type = "conv2d_transpose" then
    "Filter"
  else if op_type = "mul" ∨ op_type = "matmul" then "Y"
  else ""

/-- The value picked by `std::max_element(input, input + size, abs_compare)`
(an element of largest absolute value; the earliest such element wins ties,
matching `max_element`'s replace-only-on-strictly-greater behavior). -/
def maxElementAbs : List ℚ → Option ℚ
  | [] => none
  | x :: xs => some (xs.foldl (fun acc y => if |acc| < |y| then y else acc) x)

/-- `FindAbsMax`: absolute value of the element selected by `max_element`.
The C++ function dereferences the `max_element` iterator unconditionally, so
an empty buffer (past-the-end dereference) has no defined result: `none`. -/
def FindAbsMax (l : List ℚ) : Option ℚ :=
  (maxElementAbs l).map (fun m => |m|)

/-- `QuantizeTensorInPlace<int8_t>`: copy the buffer, clear the original and
rewrite every element as the rounded quotient by `scale`; the element type
becomes int8. -/
def QuantizeTensorInPlace (weight : Tensor) (scale : ℚ) : Tensor :=
  { weight with
    data := weight.data.map (fun x => ((quantRound scale x : ℤ) : ℚ))
    precision := .kInt8 }

/-- `k`-fold repetition of `QuantizeTensorInPlace` with a fixed scale. -/
def quantIter (scale : ℚ) : Nat → Tensor → Tensor
  | 0, t => t
  | k + 1, t => quantIter scale k (QuantizeTensorInPlace t scale)

/-! ### DeleteQuantOpFuser (lines 83-116) -/

/-- The roles bound by `DeleteQuantOpFuser::BuildPattern`, as node ids. -/
structure DeleteQuantMatch where
  input_scale_node : Nat
  input_act_node : Nat
  quant_node : Nat
  output_scale_node : Nat
  output_act_node : Nat
deriving DecidableEq

/-- The per-consumer descriptor update of `DeleteQuantOpFuser::InsertNewNode`:
`SetInputScale(out_act_name, {scale_value})`, `SetAttr("bit_length", ...)`,
`UpdateAllInputs(out_act_name, in_act_name)`. -/
def deleteQuantConsumerUpdate (out_act_name in_act_name : String)
    (scale_value : ℚ) (bit_length : Int) (info : OpInfo) : OpInfo :=
  ((info.setInputScale out_act_name [scale_value]).setAttr "bit_length"
      (.aInt bit_length)).updateAllInputs out_act_name in_act_name

/-- `DeleteQuantOpFuser::InsertNewNode`.  Reads `bit_length` from the quant
op, the scalar from the output-scale tensor, rewrites every consumer of the
quantized output, links the original activation to each consumer and removes
the four matched marker nodes. -/
def DeleteQuantOpFuser.InsertNewNode (g : Graph) (scope : Scope)
    (m : DeleteQuantMatch) : Except Err Graph := do
  let quantInfo ← ofOption .invariantViolation ((g.findNode m.quant_node).bind Node.opInfo?)
  let bit_length ← ofOption .invariantViolation (quantInfo.getAttrInt "bit_length")
  let range : Int := intRange bit_length
  let outScaleName ← ofOption .invariantViolation
      ((g.findNode m.output_scale_node).bind Node.varName?)
  -- Modelled from the spec: `Scope::FindVar` is outside the given source
  -- file; §6 specifies `lookup_tensor(name)` fails with LookupError if the
  -- variable is absent from storage.
  let scale_tensor ← ofOption .lookupError (scope.findVar outScaleName)
  let scale_value : ℚ := scale_tensor.data.headD 0 / (range : ℚ)
  let in_act_name ← ofOption .invariantViolation
      ((g.findNode m.input_act_node).bind Node.varName?)
  let out_act_name ← ofOption .invariantViolation
      ((g.findNode m.output_act_node).bind Node.varName?)
  let outlinks := g.outlinks m.output_act_node
  let g1 := outlinks.foldl (fun gacc cid =>
      (gacc.updateNode cid (Node.mapOp
          (deleteQuantConsumerUpdate out_act_name in_act_name scale_value bit_length))).addEdge
        m.input_act_node cid) g
  pure (g1.removeNodes
    [m.input_scale_node, m.quant_node, m.output_scale_node, m.output_act_node])

/-! ### DequantOpFuser (lines 151-221) -/

/-- The roles bound by `DequantOpFuser::BuildPattern`. -/
structure DequantMatch where
  quantized_op_input : Nat
  quantized_op_weight : Nat
  quantized_op : Nat
  dequant_op : Nat
  dequant_op_out : Nat
deriving DecidableEq

/-- A fresh node id: one past the largest id present. -/
def Graph.freshId (g : Graph) : Nat :=
  (g.nodes.map Node.id).foldl max 0 + 1

/-- `DequantOpFuser::InsertNewNode`.  Derives the per-tensor weight scale
`range * range / max_range / range`, replicates it over the weight-scale
slot, converts the weight buffer to int8 by a direct truncating cast, and
creates a new operator node wired to the original input/weight and the final
output. -/
def DequantOpFuser.InsertNewNode (quantized_op_type : String) (g : Graph)
    (scope : Scope) (m : DequantMatch) : Except Err (Graph × Scope) := do
  let input_name ← ofOption .invariantViolation
      ((g.findNode m.quantized_op_input).bind Node.varName?)
  let weight_name ← ofOption .invariantViolation
      ((g.findNode m.quantized_op_weight).bind Node.varName?)
  let out_name ← ofOption .invariantViolation
      ((g.findNode m.dequant_op_out).bind Node.varName?)
  let qinfo ← ofOption .invariantViolation ((g.findNode m.quantized_op).bind Node.opInfo?)
  let bit_length ← ofOption .invariantViolation (qinfo.getAttrInt "bit_length")
  let range : Int := intRange bit_length
  let dinfo ← ofOption .invariantViolation ((g.findNode m.dequant_op).bind Node.opInfo?)
  let max_range ← ofOption .invariantViolation (dinfo.getAttrFloat "max_range")
  let whole_weight_scale : ℚ := ((range * range : Int) : ℚ) / max_range / (range : ℚ)
  -- Modelled from the spec: `Scope::FindVar` fails with LookupError if absent.
  let quantized_weight_t ← ofOption .lookupError (scope.findVar weight_name)
  let descAndSize : OpInfo × Int :=
    if quantized_op_type = "conv2d" ∨ quantized_op_type = "depthwise_conv2d" ∨
        quantized_op_type = "conv2d_transpose" then
      ((qinfo.setInput "Input" [input_name]).setOutput "Output" [out_name],
        quantized_weight_t.dims.getD 0 0)
    else if quantized_op_type = "mul" ∨ quantized_op_type = "matmul" then
      ((qinfo.setInput "X" [input_name]).setOutput "Out" [out_name],
        quantized_weight_t.dims.getD 1 0)
    else (qinfo, 0)
  let weight_scale : List ℚ := List.replicate descAndSize.2.toNat whole_weight_scale
  let op_desc := (descAndSize.1.setAttr "enable_int8" (.aBool true)).setInputScale
      weight_name weight_scale
  -- `static_cast<int8_t>(temp_data[i])`: truncating cast, no rounding.
  let new_weight : Tensor :=
    { quantized_weight_t with
      data := quantized_weight_t.data.map (fun x => ((ratTrunc x : ℤ) : ℚ))
      persistable := true
      precision := .kInt8 }
  let scope' := scope.setVar weight_name new_weight
  let nid := g.freshId
  let g' := (((g.addNode ⟨nid, .opK op_desc⟩).addEdge m.quantized_op_input nid).addEdge
      m.quantized_op_weight nid).addEdge nid m.dequant_op_out
  pure (g', scope')

/-! ### ChannelWiseDequantOpFuser (lines 260-324) -/

/-- The roles bound by `ChannelWiseDequantOpFuser::BuildPattern`. -/
structure ChannelWiseDequantMatch where
  quantized_op_input : Nat
  quantized_op_weight : Nat
  quantized_op : Nat
  dequant_op_channel_scale : Nat
  dequant_op : Nat
  dequant_op_out : Nat
deriving DecidableEq

/-- `ChannelWiseDequantOpFuser::InsertNewNode`.  Reads the list-valued
`quant_bits` attribute (first element is the weight bit length), derives a
true per-channel scale vector from the channel-scale tensor, converts the
weight to int8 by truncating cast and creates the replacement operator
node. -/
def ChannelWiseDequantOpFuser.InsertNewNode (quantized_op_type : String)
    (g : Graph) (scope : Scope) (m : ChannelWiseDequantMatch) :
    Except Err (Graph × Scope) := do
  let input_name ← ofOption .invariantViolation
      ((g.findNode m.quantized_op_input).bind Node.varName?)
  let weight_name ← ofOption .invariantViolation
      ((g.findNode m.quantized_op_weight).bind Node.varName?)
  let out_name ← ofOption .invariantViolation
      ((g.findNode m.dequant_op_out).bind Node.varName?)
  let qinfo ← ofOption .invariantViolation ((g.findNode m.quantized_op).bind Node.opInfo?)
  let dinfo ← ofOption .invariantViolation ((g.findNode m.dequant_op).bind Node.opInfo?)
  let quant_bits ← ofOption .invariantViolation (dinfo.getAttrIntList "quant_bits")
  -- `quant_bits[0]`: the source indexes without a bound check (well-formed
  -- graphs carry a non-empty list).
  let weight_bit_length : Int := quant_bits.getD 0 0
  let range : Int := intRange weight_bit_length
  let channel_scale_name ← ofOption .invariantViolation
      ((g.findNode m.dequant_op_channel_scale).bind Node.varName?)
  -- Modelled from the spec: `Scope::FindVar` fails with LookupError if absent.
  let channel_scale_tensor ← ofOption .lookupError (scope.findVar channel_scale_name)
  let weight_scale : List ℚ := channel_scale_tensor.data.map (fun c => c / (range : ℚ))
  let op_desc0 : OpInfo :=
    if quantized_op_type = "conv2d" ∨ quantized_op_type = "depthwise_conv2d" ∨
        quantized_op_type = "conv2d_transpose" then
      (qinfo.setInput "Input" [input_name]).setOutput "Output" [out_name]
    else if quantized_op_type = "mul" ∨ quantized_op_type = "matmul" then
      (qinfo.setInput "X" [input_name]).setOutput "Out" [out_name]
    else qinfo
  let op_desc := (op_desc0.setAttr "enable_int8" (.aBool true)).setInputScale
      weight_name weight_scale
  let quantized_weight_t ← ofOption .lookupError (scope.findVar weight_name)
  let new_weight : Tensor :=
    { quantized_weight_t with
      data := quantized_weight_t.data.map (fun x => ((ratTrunc x : ℤ) : ℚ))
      persistable := true
      precision := .kInt8 }
  let scope' := scope.setVar weight_name new_weight
  let nid := g.freshId
  let g' := (((g.addNode ⟨nid, .opK op_desc⟩).addEdge m.quantized_op_input nid).addEdge
      m.quantized_op_weight nid).addEdge nid m.dequant_op_out
  pure (g', scope')

/-! ### QuantDequantOpFuser (lines 352-425) -/

/-- The roles bound by `QuantDequantOpFuser::BuildPattern`; the input-scale
role exists only for the moving-average-abs-max pattern shape. -/
structure QDMatch where
  input_var_node : Nat
  quant_dequant_node : Nat
  output_scale_node : Nat
  output_var_node : Nat
  input_scale_node : Option Nat
deriving DecidableEq

/-- The consumer types that are marked int8-enabled and trigger the
in-place weight conversion (lines 403-404). -/
def quantizedOpTypesForInt8 : List String :=
  ["mul", "conv2d", "depthwise_conv2d"]

/-- The quantization axis of a weight consumer: 0 for `conv2d` and
`depthwise_conv2d`, 1 for everything else (lines 394-398). -/
def quantAxisOf (op_type : String) : Nat :=
  if op_type = "conv2d" ∨ op_type = "depthwise_conv2d" then 0 else 1

/-- Threshold derivation of `QuantDequantOpFuser::InsertNewNode` (lines
367-382): a weight input requires the abs-max subtype and takes
`FindAbsMax` over the tensor; an activation requires the
moving-average-abs-max subtype and reads the output-scale tensor's scalar.
The failed `CHECK_EQ` is a fatal invariant violation. -/
def qdThreshold (qd_type : String) (is_weight : Bool) (input_t : Tensor)
    (g : Graph) (scope : Scope) (output_scale_node : Nat) : Except Err ℚ :=
  if is_weight then
    if qd_type = "fake_quantize_dequantize_abs_max" then
      .ok ((FindAbsMax input_t.data).getD 0)
    else .error .invariantViolation
  else
    if qd_type = "fake_quantize_dequantize_moving_average_abs_max" then do
      let osn ← ofOption .invariantViolation
          ((g.findNode output_scale_node).bind Node.varName?)
      -- Modelled from the spec: `Scope::FindVar` fails with LookupError.
      let scale_tensor ← ofOption .lookupError (scope.findVar osn)
      pure (scale_tensor.data.headD 0)
    else .error .invariantViolation

/-- Does consumer `cid` fall in `quantizedOpTypesForInt8`? -/
def qdQualifies (g : Graph) (cid : Nat) : Bool :=
  match (g.findNode cid).bind Node.opInfo? with
  | some info => decide (info.type ∈ quantizedOpTypesForInt8)
  | none => false

/-- The descriptor update applied to one consumer inside the loop of
`QuantDequantOpFuser::InsertNewNode` (lines 388-410): rename the input,
copy bit length; for a weight input attach a scale vector of length equal
to the weight's size along the quantization axis and mark qualifying types
int8-enabled; for an activation attach the singleton scale. -/
def qdConsumerInfoUpdate (is_weight : Bool) (input_var_name output_var_name : String)
    (bit_length : Int) (scale_value : ℚ) (dims : List Int) (info : OpInfo) : OpInfo :=
  let info1 := (info.updateAllInputs output_var_name input_var_name).setAttr
      "bit_length" (.aInt bit_length)
  if is_weight then
    let scale_size : Nat := (dims.getD (quantAxisOf info.type) 0).toNat
    let info2 := info1.setInputScale input_var_name (List.replicate scale_size scale_value)
    if info.type ∈ quantizedOpTypesForInt8 then
      info2.setAttr "enable_int8" (.aBool true)
    else info2
  else
    info1.setInputScale input_var_name [scale_value]

/-- One iteration of the consumer loop: update the consumer's descriptor,
link the original input to it, and — for a qualifying weight consumer —
run `QuantizeTensorInPlace` on the stored weight tensor (reading the
tensor's current state through the scope, as the C++ does through the
pointer obtained before the loop). -/
def qdConsumerStep (is_weight : Bool) (input_var_name output_var_name : String)
    (bit_length : Int) (scale_value : ℚ) (in_id : Nat)
    (acc : Graph × Scope) (cid : Nat) : Graph × Scope :=
  let g := acc.1
  let scope := acc.2
  let t := (scope.findVar input_var_name).getD ⟨[], [], false, .kFloat⟩
  let g' := (g.updateNode cid (Node.mapOp
      (qdConsumerInfoUpdate is_weight input_var_name output_var_name bit_length
        scale_value t.dims))).addEdge in_id cid
  let scope' :=
    if is_weight && qdQualifies g cid then
      scope.setVar input_var_name (QuantizeTensorInPlace t scale_value)
    else scope
  (g', scope')

/-- `QuantDequantOpFuser::InsertNewNode`. -/
def QuantDequantOpFuser.InsertNewNode (qd_type : String) (g : Graph)
    (scope : Scope) (m : QDMatch) : Except Err (Graph × Scope) := do
  let input_var_name ← ofOption .invariantViolation
      ((g.findNode m.input_var_node).bind Node.varName?)
  let output_var_name ← ofOption .invariantViolation
      ((g.findNode m.output_var_node).bind Node.varName?)
  let is_weight ← ofOption .invariantViolation
      ((g.findNode m.input_var_node).bind Node.isWeight?)
  -- Modelled from the spec: `Scope::FindVar` fails with LookupError.
  let input_var_tensor ← ofOption .lookupError (scope.findVar input_var_name)
  let threshold ← qdThreshold qd_type is_weight input_var_tensor g scope m.output_scale_node
  let qdInfo ← ofOption .invariantViolation
      ((g.findNode m.quant_dequant_node).bind Node.opInfo?)
  let bit_length ← ofOption .invariantViolation (qdInfo.getAttrInt "bit_length")
  let scale_value : ℚ := threshold / ((intRange bit_length : Int) : ℚ)
  let consumers := g.outlinks m.output_var_node
  let gs := consumers.foldl
      (qdConsumerStep is_weight input_var_name output_var_name bit_length scale_value
        m.input_var_node) (g, scope)
  let base_rm := [m.quant_dequant_node, m.output_scale_node, m.output_var_node]
  if qd_type = "fake_quantize_dequantize_moving_average_abs_max" then
    match m.input_scale_node with
    | some isn => pure (gs.1.removeNodes (base_rm ++ [isn]), gs.2)
    | none => .error .invariantViolation
  else
    pure (gs.1.removeNodes base_rm, gs.2)

/-! ### DynamicQuantOpFuser (lines 439-478) -/

/-- The roles bound by `DynamicQuantOpFuser::BuildPattern`. -/
structure DynamicQuantMatch where
  op_node : Nat
  weight_node : Nat
deriving DecidableEq

/-- `DynamicQuantOpFuser::InsertNewNode`.  Fatal unless the weight has rank
2; reads `bit_length` and the `"<argument>0_threshold"` attribute, attaches
a uniformly filled scale vector of length `weight_dims[1]`, sets
`enable_int8` and `bit_length`, and converts the weight to int8 in place by
rounded division — mutating only the existing operator node. -/
def DynamicQuantOpFuser.InsertNewNode (input_argname : String) (g : Graph)
    (scope : Scope) (m : DynamicQuantMatch) : Except Err (Graph × Scope) := do
  let weight_name ← ofOption .invariantViolation
      ((g.findNode m.weight_node).bind Node.varName?)
  -- Modelled from the spec: `Scope::FindVar` fails with LookupError.
  let weight_tensor ← ofOption .lookupError (scope.findVar weight_name)
  if weight_tensor.dims.length = 2 then
    let op_info ← ofOption .invariantViolation ((g.findNode m.op_node).bind Node.opInfo?)
    let bit_length ← ofOption .invariantViolation (op_info.getAttrInt "bit_length")
    let weight_threshold ← ofOption .invariantViolation
        (op_info.getAttrFloat (input_argname ++ "0_threshold"))
    let weight_scale : ℚ := weight_threshold / ((intRange bit_length : Int) : ℚ)
    let weight_scale_vct : List ℚ :=
      List.replicate (weight_tensor.dims.getD 1 0).toNat weight_scale
    let op_info2 := ((op_info.setAttr "enable_int8" (.aBool true)).setAttr
        "bit_length" (.aInt bit_length)).setInputScale weight_name weight_scale_vct
    let g' := g.updateNode m.op_node (Node.mapOp (fun _ => op_info2))
    let new_weight : Tensor :=
      { weight_tensor with
        data := weight_tensor.data.map (fun x => ((quantRound weight_scale x : ℤ) : ℚ))
        persistable := true
        precision := .kInt8 }
    pure (g', scope.setVar weight_name new_weight)
  else
    .error .invariantViolation

/-! ### Generic reduction lemmas -/

@[simp]
theorem ofOption_some {α : Type} (e : Err) (a : α) : ofOption e (some a) = .ok a := rfl

@[simp]
theorem ofOption_none {α : Type} (e : Err) : ofOption e (none : Option α) = .error e := rfl

@[simp]
theorem ok_bind {α β : Type} (a : α) (f : α → Except Err β) :
    (Except.ok a >>= f) = f a := rfl

@[simp]
theorem error_bind {α β : Type} (e : Err) (f : α → Except Err β) :
    ((Except.error e : Except Err α) >>= f) = .error e := rfl

/-! ### C4: round-trip bounds of the two conversion styles -/

theorem abs_sub_ratTrunc_le_one (x : ℚ) : |x - (ratTrunc x : ℚ)| ≤ 1 := by
  unfold ratTrunc
  by_cases h : 0 ≤ x
  · rw [if_pos h, abs_le]
    have h1 : (⌊x⌋ : ℚ) ≤ x := Int.floor_le x
    have h2 : x - 1 < (⌊x⌋ : ℚ) := Int.sub_one_lt_floor x
    constructor <;> linarith
  · rw [if_neg h, abs_le]
    have h1 : x ≤ (⌈x⌉ : ℚ) := Int.le_ceil x
    have h2 : (⌈x⌉ : ℚ) < x + 1 := Int.ceil_lt_add_one x
    constructor <;> linarith

/-- C4: quantizing `v` with scale `s > 0` and reconstructing `v' = q × s`
satisfies `|v - v'| ≤ s/2` for the rounded conversion (`quantRound`, used by
`QuantizeTensorInPlace` and the dynamic rule) and `|v - v'| ≤ s` for the
truncating `static_cast<int8_t>` conversion of the dequant fusers
(`ratTrunc`, applied to the already scale-normalized value `v / s`).  Both
bounds hold in particular at the boundary values `v = 0` and
`v = max(|weights|)` since `v` is universally quantified. -/
theorem C4_round_trip (s v : ℚ) (hs : 0 < s) :
    |v - ((quantRound s v : ℤ) : ℚ) * s| ≤ s / 2 ∧
    |v - ((ratTrunc (v / s) : ℤ) : ℚ) * s| ≤ s := by
  have hs0 : s ≠ 0 := ne_of_gt hs
  have hv : v / s * s = v := div_mul_cancel₀ v hs0
  constructor
  · have h := abs_sub_round (v / s)
    have heq : v - ((quantRound s v : ℤ) : ℚ) * s = (v / s - ((round (v / s) : ℤ) : ℚ)) * s := by
      unfold quantRound
      rw [sub_mul, hv]
    rw [heq, abs_mul, abs_of_pos hs]
    calc |v / s - ((round (v / s) : ℤ) : ℚ)| * s ≤ 1 / 2 * s :=
          mul_le_mul_of_nonneg_right h (le_of_lt hs)
      _ = s / 2 := by ring
  · have h := abs_sub_ratTrunc_le_one (v / s)
    have heq : v - ((ratTrunc (v / s) : ℤ) : ℚ) * s = (v / s - ((ratTrunc (v / s) : ℤ) : ℚ)) * s := by
      rw [sub_mul, hv]
    rw [heq, abs_mul, abs_of_pos hs]
    calc |v / s - ((ratTrunc (v / s) : ℤ) : ℚ)| * s ≤ 1 * s :=
          mul_le_mul_of_nonneg_right h (le_of_lt hs)
      _ = s := by ring

theorem C4_round_trip_witness :
    |(3 / 2 : ℚ) - ((quantRound 1 (3 / 2) : ℤ) : ℚ) * 1| ≤ 1 / 2 ∧
    |(3 / 2 : ℚ) - ((ratTrunc ((3 / 2) / 1) : ℤ) : ℚ) * 1| ≤ 1 :=
  C4_round_trip 1 (3 / 2) (by norm_num)

/-! ### C10: FindAbsMax -/

theorem maxAbsFold_spec (x : ℚ) (xs : List ℚ) :
    (xs.foldl (fun acc y => if |acc| < |y| then y else acc) x) ∈ x :: xs ∧
    ∀ y ∈ x :: xs, |y| ≤ |xs.foldl (fun acc y => if |acc| < |y| then y else acc) x| := by
  induction xs generalizing x with
  | nil => simp
  | cons z zs ih =>
    obtain ⟨hmem, hle⟩ := ih (if |x| < |z| then z else x)
    have hstep : ((z :: zs).foldl (fun acc y => if |acc| < |y| then y else acc) x) =
        (zs.foldl (fun acc y => if |acc| < |y| then y else acc) (if |x| < |z| then z else x)) := by
      simp [List.foldl]
    rw [hstep]
    have hxif : |x| ≤ |if |x| < |z| then z else x| := by
      by_cases hxz : |x| < |z|
      · rw [if_pos hxz]; exact le_of_lt hxz
      · rw [if_neg hxz]
    have hzif : |z| ≤ |if |x| < |z| then z else x| := by
      by_cases hxz : |x| < |z|
      · rw [if_pos hxz]
      · rw [if_neg hxz]; exact le_of_not_lt hxz
    have hifle : |if |x| < |z| then z else x| ≤
        |zs.foldl (fun acc y => if |acc| < |y| then y else acc) (if |x| < |z| then z else x)| :=
      hle _ (List.mem_cons_self _ _)
    constructor
    · rcases List.mem_cons.mp hmem with h | h
      · rw [h]
        by_cases hxz : |x| < |z|
        · rw [if_pos hxz]; exact List.mem_cons_of_mem _ (List.mem_cons_self _ _)
        · rw [if_neg hxz]; exact List.mem_cons_self _ _
      · exact List.mem_cons_of_mem _ (List.mem_cons_of_mem _ h)
    · intro y hy
      rcases List.mem_cons.mp hy with h | h
      · rw [h]; exact le_trans hxif hifle
      · rcases List.mem_cons.mp h with h' | h'
        · rw [h']; exact le_trans hzif hifle
        · exact hle y (List.mem_cons_of_mem _ h')

/-- C10: for a non-empty buffer `FindAbsMax` returns the maximum of the
absolute values of its elements (an upper bound that is attained); for the
empty buffer the `max_element` iterator is past-the-end and its dereference
has no defined result, so the model returns `none`. -/
theorem C10_FindAbsMax (l : List ℚ) :
    (l ≠ [] → ∃ m, FindAbsMax l = some m ∧ (∀ x ∈ l, |x| ≤ m) ∧ ∃ x ∈ l, |x| = m) ∧
    FindAbsMax ([] : List ℚ) = none := by
  constructor
  · intro hne
    match l with
    | [] => exact absurd rfl hne
    | x :: xs =>
      obtain ⟨hmem, hle⟩ := maxAbsFold_spec x xs
      refine ⟨|xs.foldl (fun acc y => if |acc| < |y| then y else acc) x|, ?_, hle, ?_⟩
      · simp [FindAbsMax, maxElementAbs]
      · exact ⟨_, hmem, rfl⟩
  · rfl

/-! ### Graph bookkeeping lemmas -/

theorem Node.mapOp_pres_id (f : OpInfo → OpInfo) (n : Node) : (Node.mapOp f n).id = n.id := by
  cases hk : n.kind <;> simp [Node.mapOp, hk]

theorem map_update_step (f : Node → Node) (hf : ∀ n, (f n).id = n.id)
    (c : Nat) (rest : List Nat) (hc : c ∉ rest) (ns : List Node) :
    (ns.map (fun n => if n.id = c then f n else n)).map
      (fun n => if n.id ∈ rest then f n else n)
    = ns.map (fun n => if n.id ∈ (c :: rest) then f n else n) := by
  rw [List.map_map]
  apply List.map_congr_left
  intro n _
  simp only [Function.comp]
  by_cases h : n.id = c
  · rw [if_pos h]
    have hrest : (f n).id ∉ rest := by rw [hf n, h]; exact hc
    rw [if_neg hrest, if_pos (by rw [h]; exact List.mem_cons_self _ _)]
  · rw [if_neg h]
    by_cases h2 : n.id ∈ rest
    · rw [if_pos h2, if_pos (List.mem_cons_of_mem _ h2)]
    · rw [if_neg h2, if_neg (by simp [List.mem_cons, h, h2])]

theorem ids_after_update (f : Node → Node) (hf : ∀ n, (f n).id = n.id)
    (l : List Nat) (ns : List Node) :
    ((ns.map (fun n => if n.id ∈ l then f n else n)).map Node.id) = ns.map Node.id := by
  rw [List.map_map]
  apply List.map_congr_left
  intro n _
  simp only [Function.comp]
  by_cases h : n.id ∈ l <;> simp [h, hf]

/-- Node-list characterization of the update-and-link consumer loop of
`DeleteQuantOpFuser::InsertNewNode`. -/
theorem foldl_update_addEdge_nodes (f : OpInfo → OpInfo) (a : Nat) :
    ∀ (l : List Nat) (g : Graph), l.Nodup →
    (l.foldl (fun gacc cid => (gacc.updateNode cid (Node.mapOp f)).addEdge a cid) g).nodes
    = g.nodes.map (fun n => if n.id ∈ l then Node.mapOp f n else n) := by
  intro l
  induction l with
  | nil =>
      intro g _
      simp
  | cons c rest ih =>
      intro g hnd
      have hc : c ∉ rest := (List.nodup_cons.mp hnd).1
      have hrest : rest.Nodup := (List.nodup_cons.mp hnd).2
      simp only [List.foldl_cons]
      rw [ih _ hrest]
      have hn : ((g.updateNode c (Node.mapOp f)).addEdge a c).nodes
          = g.nodes.map (fun n => if n.id = c then Node.mapOp f n else n) := rfl
      rw [hn]
      exact map_update_step (Node.mapOp f) (Node.mapOp_pres_id f) c rest hc g.nodes

theorem removeNodesList_nil (ns : List Node) : removeNodesList [] ns = ns := by
  induction ns with
  | nil => rfl
  | cons n rest ih => simp [removeNodesList, ih]

theorem removeNodesList_sublist (rm : List Nat) (ns : List Node) :
    (removeNodesList rm ns).Sublist ns := by
  induction ns with
  | nil => exact List.Sublist.refl _
  | cons n rest ih =>
      by_cases h : n.id ∈ rm
      · simp only [removeNodesList, if_pos h]
        exact ih.cons n
      · simp only [removeNodesList, if_neg h]
        exact ih.cons₂ n

theorem removeNodesList_mem (rm : List Nat) (ns : List Node) (n : Node)
    (hn : n ∈ ns) (h : n.id ∉ rm) : n ∈ removeNodesList rm ns := by
  induction ns with
  | nil => exact absurd hn (List.not_mem_nil n)
  | cons x rest ih =>
      rcases List.mem_cons.mp hn with he | hm
      · subst he
        simp only [removeNodesList, if_neg h]
        exact List.mem_cons_self _ _
      · by_cases hx : x.id ∈ rm
        · simp only [removeNodesList, if_pos hx]
          exact ih hm
        · simp only [removeNodesList, if_neg hx]
          exact List.mem_cons_of_mem _ (ih hm)

theorem removeNodesList_eq_self (rm : List Nat) (ns : List Node)
    (h : ∀ n ∈ ns, n.id ∉ rm) : removeNodesList rm ns = ns := by
  induction ns with
  | nil => rfl
  | cons n rest ih =>
      simp only [removeNodesList, if_neg (h n (List.mem_cons_self _ _))]
      rw [ih (fun x hx => h x (List.mem_cons_of_mem _ hx))]

theorem removeNodesList_cons (rm : List Nat) (n : Node) (rest : List Node) :
    removeNodesList rm (n :: rest) =
      if n.id ∈ rm then removeNodesList rm rest else n :: removeNodesList rm rest := rfl

theorem removeNodesList_single_length (a : Nat) (ns : List Node)
    (hnd : (ns.map Node.id).Nodup) (ha : a ∈ ns.map Node.id) :
    (removeNodesList [a] ns).length = ns.length - 1 := by
  induction ns with
  | nil => simp at ha
  | cons n rest ih =>
      have hnd2 : (n.id :: rest.map Node.id).Nodup := by
        rw [List.map_cons] at hnd; exact hnd
      have hnd' : (rest.map Node.id).Nodup := (List.nodup_cons.mp hnd2).2
      have hhead : n.id ∉ rest.map Node.id := (List.nodup_cons.mp hnd2).1
      rw [removeNodesList_cons]
      by_cases h : n.id = a
      · rw [if_pos (show n.id ∈ [a] by simp [h])]
        have heq : removeNodesList [a] rest = rest := by
          apply removeNodesList_eq_self
          intro x hx
          simp only [List.mem_singleton]
          intro hxa
          apply hhead
          rw [h, ← hxa]
          exact List.mem_map_of_mem Node.id hx
        rw [heq]
        simp
      · have ha' : a ∈ rest.map Node.id := by
          rw [List.map_cons] at ha
          rcases List.mem_cons.mp ha with h1 | h1
          · exact absurd h1.symm h
          · exact h1
        rw [if_neg (show n.id ∉ [a] by simp [h])]
        have hlen := ih hnd' ha'
        have hpos : 1 ≤ rest.length := by
          rcases rest with _ | ⟨y, ys⟩
          · simp at ha'
          · simp
        simp only [List.length_cons, hlen]
        omega

theorem removeNodesList_decompose (a : Nat) (rs : List Nat) (ns : List Node) :
    removeNodesList (a :: rs) ns = removeNodesList rs (removeNodesList [a] ns) := by
  induction ns with
  | nil => rfl
  | cons n rest ih =>
      rw [removeNodesList_cons, removeNodesList_cons]
      by_cases h1 : n.id = a
      · rw [if_pos (show n.id ∈ a :: rs by simp [h1]),
          if_pos (show n.id ∈ [a] by simp [h1]), ih]
      · rw [if_neg (show n.id ∉ [a] by simp [h1])]
        by_cases h2 : n.id ∈ rs
        · rw [if_pos (List.mem_cons_of_mem _ h2), removeNodesList_cons, if_pos h2, ih]
        · rw [if_neg (show n.id ∉ a :: rs by simp [h1, h2]), removeNodesList_cons,
            if_neg h2, ih]

theorem removeNodesList_length : ∀ (rm : List Nat) (ns : List Node),
    (ns.map Node.id).Nodup → rm.Nodup → (∀ a ∈ rm, a ∈ ns.map Node.id) →
    (removeNodesList rm ns).length = ns.length - rm.length := by
  intro rm
  induction rm with
  | nil =>
      intro ns _ _ _
      rw [removeNodesList_nil]
      simp
  | cons a rs ih =>
      intro ns hnd hrm hsub
      have ha : a ∈ ns.map Node.id := hsub a (List.mem_cons_self _ _)
      have hanr : a ∉ rs := (List.nodup_cons.mp hrm).1
      have hrs : rs.Nodup := (List.nodup_cons.mp hrm).2
      rw [removeNodesList_decompose]
      have hsubl := removeNodesList_sublist [a] ns
      have hnd' : ((removeNodesList [a] ns).map Node.id).Nodup :=
        (hnd.sublist (hsubl.map Node.id))
      have hsub' : ∀ b ∈ rs, b ∈ (removeNodesList [a] ns).map Node.id := by
        intro b hb
        obtain ⟨n, hn, hnb⟩ := List.mem_map.mp (hsub b (List.mem_cons_of_mem _ hb))
        have hba : b ≠ a := fun he => hanr (he ▸ hb)
        have : n ∈ removeNodesList [a] ns := by
          apply removeNodesList_mem
          · exact hn
          · simp [hnb, hba]
        exact List.mem_map.mpr ⟨n, this, hnb⟩
      rw [ih _ hnd' hrs hsub', removeNodesList_single_length a ns hnd ha]
      simp only [List.length_cons]
      omega

@[simp]
theorem pure_eq_ok {α : Type} (a : α) : (pure a : Except Err α) = .ok a := rfl

theorem Node.mapOp_opK (f : OpInfo → OpInfo) (n : Node) (info : OpInfo)
    (h : n.kind = .opK info) : Node.mapOp f n = ⟨n.id, .opK (f info)⟩ := by
  obtain ⟨nid, nkind⟩ := n
  cases nkind with
  | varK a w => simp at h
  | opK i =>
      injection h with h2
      subst h2
      rfl

/-- C1: for a `DeleteQuantOpFuser` match with bit length `b` and scalar `S`
in the output-scale tensor, the rewrite attaches the per-tensor input scale
`S / (2^(b-1) - 1)` to every consumer of the quantized output, copies `b`
onto it as `bit_length`, renames the consumer's input from the quantized
output variable to the original input activation, and removes exactly the 4
matched marker nodes (quant op, both scale variables, quantized output
variable) from the graph. -/
theorem C1_delete_quant_rewrite
    (g : Graph) (scope : Scope) (m : DeleteQuantMatch)
    (qi : OpInfo) (b : Int) (sn in_name out_name : String) (t : Tensor) (S : ℚ) (ds : List ℚ)
    (hq : (g.findNode m.quant_node).bind Node.opInfo? = some qi)
    (hb : qi.getAttrInt "bit_length" = some b)
    (hsn : (g.findNode m.output_scale_node).bind Node.varName? = some sn)
    (ht : scope.findVar sn = some t)
    (hd : t.data = S :: ds)
    (hin : (g.findNode m.input_act_node).bind Node.varName? = some in_name)
    (hout : (g.findNode m.output_act_node).bind Node.varName? = some out_name)
    (hnd : (g.nodes.map Node.id).Nodup)
    (hrm : [m.input_scale_node, m.quant_node, m.output_scale_node, m.output_act_node].Nodup)
    (hsub : ∀ a ∈ [m.input_scale_node, m.quant_node, m.output_scale_node, m.output_act_node],
      a ∈ g.nodes.map Node.id)
    (hcons : (g.outlinks m.output_act_node).Nodup) :
    ∃ g', DeleteQuantOpFuser.InsertNewNode g scope m = .ok g' ∧
      g'.nodes.length = g.nodes.length - 4 ∧
      ∀ c ∈ g.outlinks m.output_act_node,
        c ∉ [m.input_scale_node, m.quant_node, m.output_scale_node, m.output_act_node] →
        ∀ n ∈ g.nodes, n.id = c → ∀ info, n.kind = .opK info →
        ∃ n', n' ∈ g'.nodes ∧ n'.id = c ∧
          ∃ info', n'.kind = .opK info' ∧
            info'.getInputScale out_name = some [S / ((2 ^ (b - 1).toNat - 1 : Int) : ℚ)] ∧
            info'.getAttrInt "bit_length" = some b ∧
            info'.inputs = info.inputs.map
              (fun p => (p.1, p.2.map (fun v => if v = out_name then in_name else v))) := by
  have hred : DeleteQuantOpFuser.InsertNewNode g scope m
      = .ok (((g.outlinks m.output_act_node).foldl (fun gacc cid =>
          (gacc.updateNode cid (Node.mapOp (deleteQuantConsumerUpdate out_name in_name
            (S / (intRange b : ℚ)) b))).addEdge m.input_act_node cid) g).removeNodes
          [m.input_scale_node, m.quant_node, m.output_scale_node, m.output_act_node]) := by
    simp only [DeleteQuantOpFuser.InsertNewNode, hq, hb, hsn, ht, hin, hout, hd,
      List.headD_cons, ofOption_some, ok_bind, pure_eq_ok]
  refine ⟨_, hred, ?_, ?_⟩
  · have hnodes := foldl_update_addEdge_nodes
      (deleteQuantConsumerUpdate out_name in_name (S / (intRange b : ℚ)) b)
      m.input_act_node (g.outlinks m.output_act_node) g hcons
    have hids : (((g.outlinks m.output_act_node).foldl (fun gacc cid =>
        (gacc.updateNode cid (Node.mapOp (deleteQuantConsumerUpdate out_name in_name
          (S / (intRange b : ℚ)) b))).addEdge m.input_act_node cid) g).nodes.map Node.id)
        = g.nodes.map Node.id := by
      rw [hnodes]
      exact ids_after_update _ (Node.mapOp_pres_id _) _ _
    show (removeNodesList _ _).length = _
    rw [removeNodesList_length _ _ (by rw [hids]; exact hnd) hrm
      (by rw [hids]; exact hsub), hnodes]
    simp
  · intro c hc hcnr n hn hid info hkind
    have hnodes := foldl_update_addEdge_nodes
      (deleteQuantConsumerUpdate out_name in_name (S / (intRange b : ℚ)) b)
      m.input_act_node (g.outlinks m.output_act_node) g hcons
    have hmap := Node.mapOp_opK
      (deleteQuantConsumerUpdate out_name in_name (S / (intRange b : ℚ)) b) n info hkind
    refine ⟨Node.mapOp (deleteQuantConsumerUpdate out_name in_name
      (S / (intRange b : ℚ)) b) n, ?_, ?_, ?_⟩
    · apply removeNodesList_mem
      · rw [hnodes]
        exact List.mem_map.mpr ⟨n, hn, by rw [if_pos (by rw [hid]; exact hc)]⟩
      · rw [Node.mapOp_pres_id, hid]
        exact hcnr
    · rw [Node.mapOp_pres_id, hid]
    · refine ⟨deleteQuantConsumerUpdate out_name in_name (S / (intRange b : ℚ)) b info,
        ?_, ?_, ?_, rfl⟩
      · rw [hmap]
      · simp [deleteQuantConsumerUpdate, OpInfo.updateAllInputs, OpInfo.setAttr,
          OpInfo.setInputScale, OpInfo.getInputScale, lookup, intRange]
      · simp [deleteQuantConsumerUpdate, OpInfo.updateAllInputs, OpInfo.setAttr,
          OpInfo.setInputScale, OpInfo.getAttrInt, OpInfo.getAttr, lookup]

def C1qinfo : OpInfo :=
  ⟨"fake_quantize_moving_average_abs_max", [("X", ["in"]), ("InScale", ["is"])],
    [("Out", ["out"]), ("OutScale", ["os"])], [("bit_length", .aInt 8)], []⟩

def C1cinfo : OpInfo :=
  ⟨"conv2d", [("Input", ["out"])], [("Output", ["y"])], [], []⟩

def C1g : Graph :=
  ⟨[⟨0, .varK "is" false⟩, ⟨1, .varK "in" false⟩, ⟨2, .opK C1qinfo⟩,
    ⟨3, .varK "os" false⟩, ⟨4, .varK "out" false⟩, ⟨5, .opK C1cinfo⟩],
    [(0, 2), (1, 2), (2, 3), (2, 4), (4, 5)]⟩

def C1t : Tensor := ⟨[1], [254], false, .kFloat⟩

def C1m : DeleteQuantMatch := ⟨0, 1, 2, 3, 4⟩

theorem C1_delete_quant_rewrite_witness :
    ∃ g', DeleteQuantOpFuser.InsertNewNode C1g [("os", C1t)] C1m = .ok g' ∧
      g'.nodes.length = C1g.nodes.length - 4 ∧
      ∀ c ∈ C1g.outlinks C1m.output_act_node,
        c ∉ [C1m.input_scale_node, C1m.quant_node, C1m.output_scale_node, C1m.output_act_node] →
        ∀ n ∈ C1g.nodes, n.id = c → ∀ info, n.kind = .opK info →
        ∃ n', n' ∈ g'.nodes ∧ n'.id = c ∧
          ∃ info', n'.kind = .opK info' ∧
            info'.getInputScale "out" = some [(254 : ℚ) / ((2 ^ ((8 : Int) - 1).toNat - 1 : Int) : ℚ)] ∧
            info'.getAttrInt "bit_length" = some 8 ∧
            info'.inputs = info.inputs.map
              (fun p => (p.1, p.2.map (fun v => if v = "out" then "in" else v))) :=
  C1_delete_quant_rewrite C1g [("os", C1t)] C1m C1qinfo 8 "os" "in" "out" C1t 254 []
    rfl rfl rfl rfl rfl rfl rfl (by decide) (by decide) (by decide) (by decide)

/-- C8: `DeleteQuantOpFuser`'s rewrite fails fatally with a `lookupError`
when the output-scale variable's tensor is absent from storage; it returns
an error rather than silently continuing with a default scale. -/
theorem C8_delete_quant_lookup_error
    (g : Graph) (scope : Scope) (m : DeleteQuantMatch) (qi : OpInfo) (b : Int) (sn : String)
    (hq : (g.findNode m.quant_node).bind Node.opInfo? = some qi)
    (hb : qi.getAttrInt "bit_length" = some b)
    (hsn : (g.findNode m.output_scale_node).bind Node.varName? = some sn)
    (hmiss : scope.findVar sn = none) :
    DeleteQuantOpFuser.InsertNewNode g scope m = .error .lookupError := by
  simp only [DeleteQuantOpFuser.InsertNewNode, hq, hb, hsn, hmiss,
    ofOption_some, ofOption_none, ok_bind, error_bind]

theorem C8_delete_quant_lookup_error_witness :
    DeleteQuantOpFuser.InsertNewNode C1g [] C1m = .error .lookupError :=
  C8_delete_quant_lookup_error C1g [] C1m C1qinfo 8 "os" rfl rfl rfl rfl

/-- C2: `DequantOpFuser`'s rewrite computes the per-tensor weight scale
`range² / max_range / range` with `range = 2^(bit_length-1) - 1` from the
quantized op's `bit_length` and `max_range` from the dequantize op, and
attaches it replicated `weight_dims[0]` times for `conv2d`,
`depthwise_conv2d` and `conv2d_transpose`, and `weight_dims[1]` times for
`mul` and `matmul`. -/
theorem C2_dequant_scale
    (quantized_op_type : String) (g : Graph) (scope : Scope) (m : DequantMatch)
    (input_name weight_name out_name : String) (qi di : OpInfo) (b : Int) (M : ℚ) (t : Tensor)
    (hi : (g.findNode m.quantized_op_input).bind Node.varName? = some input_name)
    (hw : (g.findNode m.quantized_op_weight).bind Node.varName? = some weight_name)
    (ho : (g.findNode m.dequant_op_out).bind Node.varName? = some out_name)
    (hq : (g.findNode m.quantized_op).bind Node.opInfo? = some qi)
    (hb : qi.getAttrInt "bit_length" = some b)
    (hdeq : (g.findNode m.dequant_op).bind Node.opInfo? = some di)
    (hm : di.getAttrFloat "max_range" = some M)
    (ht : scope.findVar weight_name = some t) :
    ∃ g' scope' nid info',
      DequantOpFuser.InsertNewNode quantized_op_type g scope m = .ok (g', scope') ∧
      g'.nodes = g.nodes ++ [⟨nid, .opK info'⟩] ∧
      info'.getAttr "enable_int8" = some (.aBool true) ∧
      ((quantized_op_type = "conv2d" ∨ quantized_op_type = "depthwise_conv2d" ∨
          quantized_op_type = "conv2d_transpose") →
        info'.getInputScale weight_name = some (List.replicate (t.dims.getD 0 0).toNat
          ((((2 ^ (b - 1).toNat - 1 : Int) * (2 ^ (b - 1).toNat - 1 : Int) : Int) : ℚ) / M /
            ((2 ^ (b - 1).toNat - 1 : Int) : ℚ)))) ∧
      ((quantized_op_type = "mul" ∨ quantized_op_type = "matmul") →
        info'.getInputScale weight_name = some (List.replicate (t.dims.getD 1 0).toNat
          ((((2 ^ (b - 1).toNat - 1 : Int) * (2 ^ (b - 1).toNat - 1 : Int) : Int) : ℚ) / M /
            ((2 ^ (b - 1).toNat - 1 : Int) : ℚ)))) := by
  by_cases hconv : quantized_op_type = "conv2d" ∨ quantized_op_type = "depthwise_conv2d" ∨
      quantized_op_type = "conv2d_transpose"
  · have hred : DequantOpFuser.InsertNewNode quantized_op_type g scope m
        = .ok ((((g.addNode ⟨g.freshId, .opK
            ((((qi.setInput "Input" [input_name]).setOutput "Output" [out_name]).setAttr
              "enable_int8" (.aBool true)).setInputScale weight_name
              (List.replicate (t.dims.getD 0 0).toNat
                (((intRange b * intRange b : Int) : ℚ) / M / ((intRange b : Int) : ℚ))))⟩).addEdge
            m.quantized_op_input g.freshId).addEdge m.quantized_op_weight g.freshId).addEdge
            g.freshId m.dequant_op_out,
          scope.setVar weight_name
            { t with
              data := t.data.map (fun x => ((ratTrunc x : ℤ) : ℚ))
              persistable := true
              precision := .kInt8 }) := by
      simp only [DequantOpFuser.InsertNewNode, hi, hw, ho, hq, hb, hdeq, hm, ht,
        ofOption_some, ok_bind, pure_eq_ok, if_pos hconv]
    refine ⟨_, _, g.freshId, _, hred, rfl, ?_, ?_, ?_⟩
    · simp [OpInfo.setInputScale, OpInfo.setAttr, OpInfo.getAttr, lookup]
    · intro _
      simp [OpInfo.getInputScale, OpInfo.setInputScale, lookup, intRange]
    · intro hmul
      exfalso
      rcases hconv with h1 | h1 | h1 <;> rcases hmul with h2 | h2 <;>
        rw [h1] at h2 <;> exact absurd h2 (by decide)
  · by_cases hmul : quantized_op_type = "mul" ∨ quantized_op_type = "matmul"
    · have hred : DequantOpFuser.InsertNewNode quantized_op_type g scope m
          = .ok ((((g.addNode ⟨g.freshId, .opK
              ((((qi.setInput "X" [input_name]).setOutput "Out" [out_name]).setAttr
                "enable_int8" (.aBool true)).setInputScale weight_name
                (List.replicate (t.dims.getD 1 0).toNat
                  (((intRange b * intRange b : Int) : ℚ) / M / ((intRange b : Int) : ℚ))))⟩).addEdge
              m.quantized_op_input g.freshId).addEdge m.quantized_op_weight g.freshId).addEdge
              g.freshId m.dequant_op_out,
            scope.setVar weight_name
              { t with
                data := t.data.map (fun x => ((ratTrunc x : ℤ) : ℚ))
                persistable := true
                precision := .kInt8 }) := by
        simp only [DequantOpFuser.InsertNewNode, hi, hw, ho, hq, hb, hdeq, hm, ht,
          ofOption_some, ok_bind, pure_eq_ok, if_neg hconv, if_pos hmul]
      refine ⟨_, _, g.freshId, _, hred, rfl, ?_, ?_, ?_⟩
      · simp [OpInfo.setInputScale, OpInfo.setAttr, OpInfo.getAttr, lookup]
      · intro h
        exact absurd h hconv
      · intro _
        simp [OpInfo.getInputScale, OpInfo.setInputScale, lookup, intRange]
    · have hred : DequantOpFuser.InsertNewNode quantized_op_type g scope m
          = .ok ((((g.addNode ⟨g.freshId, .opK
              ((qi.setAttr "enable_int8" (.aBool true)).setInputScale weight_name
                (List.replicate (0 : Int).toNat
                  (((intRange b * intRange b : Int) : ℚ) / M / ((intRange b : Int) : ℚ))))⟩).addEdge
              m.quantized_op_input g.freshId).addEdge m.quantized_op_weight g.freshId).addEdge
              g.freshId m.dequant_op_out,
            scope.setVar weight_name
              { t with
                data := t.data.map (fun x => ((ratTrunc x : ℤ) : ℚ))
                persistable := true
                precision := .kInt8 }) := by
        simp only [DequantOpFuser.InsertNewNode, hi, hw, ho, hq, hb, hdeq, hm, ht,
          ofOption_some, ok_bind, pure_eq_ok, if_neg hconv, if_neg hmul]
      refine ⟨_, _, g.freshId, _, hred, rfl, ?_, ?_, ?_⟩
      · simp [OpInfo.setInputScale, OpInfo.setAttr, OpInfo.getAttr, lookup]
      · intro h
        exact absurd h hconv
      · intro h
        exact absurd h hmul

def C2qinfo : OpInfo :=
  ⟨"conv2d", [("Input", ["x"]), ("Filter", ["w"])], [("Output", ["mid"])],
    [("bit_length", .aInt 8)], []⟩

def C2dinfo : OpInfo :=
  ⟨"fake_dequantize_max_abs", [("X", ["mid"])], [("Out", ["o"])],
    [("max_range", .aFloat 16129)], []⟩

def C2g : Graph :=
  ⟨[⟨0, .varK "x" false⟩, ⟨1, .varK "w" true⟩, ⟨2, .opK C2qinfo⟩,
    ⟨3, .varK "mid" false⟩, ⟨4, .opK C2dinfo⟩, ⟨5, .varK "o" false⟩],
    [(0, 2), (1, 2), (2, 3), (3, 4), (4, 5)]⟩

def C2t : Tensor := ⟨[16, 8, 3, 3], [], false, .kFloat⟩

def C2m : DequantMatch := ⟨0, 1, 2, 4, 5⟩

theorem C2_dequant_scale_witness :
    ∃ g' scope' nid info',
      DequantOpFuser.InsertNewNode "conv2d" C2g [("w", C2t)] C2m = .ok (g', scope') ∧
      g'.nodes = C2g.nodes ++ [⟨nid, .opK info'⟩] ∧
      info'.getAttr "enable_int8" = some (.aBool true) ∧
      (("conv2d" = "conv2d" ∨ "conv2d" = "depthwise_conv2d" ∨
          "conv2d" = "conv2d_transpose") →
        info'.getInputScale "w" = some (List.replicate (C2t.dims.getD 0 0).toNat
          ((((2 ^ ((8 : Int) - 1).toNat - 1 : Int) * (2 ^ ((8 : Int) - 1).toNat - 1 : Int) : Int) : ℚ) / 16129 /
            ((2 ^ ((8 : Int) - 1).toNat - 1 : Int) : ℚ)))) ∧
      (("conv2d" = "mul" ∨ "conv2d" = "matmul") →
        info'.getInputScale "w" = some (List.replicate (C2t.dims.getD 1 0).toNat
          ((((2 ^ ((8 : Int) - 1).toNat - 1 : Int) * (2 ^ ((8 : Int) - 1).toNat - 1 : Int) : Int) : ℚ) / 16129 /
            ((2 ^ ((8 : Int) - 1).toNat - 1 : Int) : ℚ)))) :=
  C2_dequant_scale "conv2d" C2g [("w", C2t)] C2m "x" "w" "o" C2qinfo C2dinfo 8 16129 C2t
    rfl rfl rfl rfl rfl rfl rfl rfl

/-- C5: `ChannelWiseDequantOpFuser` attaches a weight-scale vector whose
length equals the channel-scale tensor's element count and whose `i`-th
entry is `channel_scale[i] / (2^(b-1) - 1)` where `b` is the first element
of the dequantize op's list-valued `quant_bits` attribute; no single value
is broadcast (the vector is an element-wise image of the channel-scale
data). -/
theorem C5_channel_wise_dequant_scale
    (quantized_op_type : String) (g : Graph) (scope : Scope) (m : ChannelWiseDequantMatch)
    (input_name weight_name out_name cs_name : String) (qi di : OpInfo)
    (b0 : Int) (qbrest : List Int) (cst t : Tensor)
    (hi : (g.findNode m.quantized_op_input).bind Node.varName? = some input_name)
    (hw : (g.findNode m.quantized_op_weight).bind Node.varName? = some weight_name)
    (ho : (g.findNode m.dequant_op_out).bind Node.varName? = some out_name)
    (hq : (g.findNode m.quantized_op).bind Node.opInfo? = some qi)
    (hdeq : (g.findNode m.dequant_op).bind Node.opInfo? = some di)
    (hqb : di.getAttrIntList "quant_bits" = some (b0 :: qbrest))
    (hcsn : (g.findNode m.dequant_op_channel_scale).bind Node.varName? = some cs_name)
    (hcst : scope.findVar cs_name = some cst)
    (ht : scope.findVar weight_name = some t) :
    ∃ g' scope' nid info',
      ChannelWiseDequantOpFuser.InsertNewNode quantized_op_type g scope m = .ok (g', scope') ∧
      g'.nodes = g.nodes ++ [⟨nid, .opK info'⟩] ∧
      info'.getInputScale weight_name
        = some (cst.data.map (fun c => c / ((2 ^ (b0 - 1).toNat - 1 : Int) : ℚ))) ∧
      (cst.data.map (fun c => c / ((2 ^ (b0 - 1).toNat - 1 : Int) : ℚ))).length
        = cst.data.length := by
  have hred : ChannelWiseDequantOpFuser.InsertNewNode quantized_op_type g scope m
      = .ok ((((g.addNode ⟨g.freshId, .opK
          (((if quantized_op_type = "conv2d" ∨ quantized_op_type = "depthwise_conv2d" ∨
                quantized_op_type = "conv2d_transpose" then
              (qi.setInput "Input" [input_name]).setOutput "Output" [out_name]
            else if quantized_op_type = "mul" ∨ quantized_op_type = "matmul" then
              (qi.setInput "X" [input_name]).setOutput "Out" [out_name]
            else qi).setAttr "enable_int8" (.aBool true)).setInputScale weight_name
            (cst.data.map (fun c => c / ((intRange b0 : Int) : ℚ))))⟩).addEdge
          m.quantized_op_input g.freshId).addEdge m.quantized_op_weight g.freshId).addEdge
          g.freshId m.dequant_op_out,
        scope.setVar weight_name
          { t with
            data := t.data.map (fun x => ((ratTrunc x : ℤ) : ℚ))
            persistable := true
            precision := .kInt8 }) := by
    simp only [ChannelWiseDequantOpFuser.InsertNewNode, hi, hw, ho, hq, hdeq, hqb,
      hcsn, hcst, ht, List.getD_cons_zero, ofOption_some, ok_bind, pure_eq_ok]
  refine ⟨_, _, g.freshId, _, hred, rfl, ?_, ?_⟩
  · simp [OpInfo.getInputScale, OpInfo.setInputScale, lookup, intRange]
  · simp

def C5qinfo : OpInfo :=
  ⟨"conv2d", [("Input", ["x"]), ("Filter", ["w"])], [("Output", ["mid"])],
    [("bit_length", .aInt 8)], []⟩

def C5dinfo : OpInfo :=
  ⟨"fake_channel_wise_dequantize_max_abs", [("X", ["mid"]), ("Scales", ["cs"])],
    [("Out", ["o"])], [("quant_bits", .aIntList [8])], []⟩

def C5g : Graph :=
  ⟨[⟨0, .varK "x" false⟩, ⟨1, .varK "w" true⟩, ⟨2, .opK C5qinfo⟩,
    ⟨3, .varK "mid" false⟩, ⟨4, .varK "cs" false⟩, ⟨5, .opK C5dinfo⟩,
    ⟨6, .varK "o" false⟩],
    [(0, 2), (1, 2), (2, 3), (3, 5), (4, 5), (5, 6)]⟩

def C5cst : Tensor := ⟨[3], [127, 254, 381], false, .kFloat⟩

def C5t : Tensor := ⟨[3, 1, 1, 1], [1, 2, 3], false, .kFloat⟩

def C5m : ChannelWiseDequantMatch := ⟨0, 1, 2, 4, 5, 6⟩

theorem C5_channel_wise_dequant_scale_witness :
    ∃ g' scope' nid info',
      ChannelWiseDequantOpFuser.InsertNewNode "conv2d" C5g [("cs", C5cst), ("w", C5t)] C5m
        = .ok (g', scope') ∧
      g'.nodes = C5g.nodes ++ [⟨nid, .opK info'⟩] ∧
      info'.getInputScale "w"
        = some (C5cst.data.map (fun c => c / ((2 ^ ((8 : Int) - 1).toNat - 1 : Int) : ℚ))) ∧
      (C5cst.data.map (fun c => c / ((2 ^ ((8 : Int) - 1).toNat - 1 : Int) : ℚ))).length
        = C5cst.data.length :=
  C5_channel_wise_dequant_scale "conv2d" C5g [("cs", C5cst), ("w", C5t)] C5m
    "x" "w" "o" "cs" C5qinfo C5dinfo 8 [] C5cst C5t
    rfl rfl rfl rfl rfl rfl rfl rfl rfl

/-- C6: `DynamicQuantOpFuser` fails fatally unless the weight has rank 2;
otherwise it computes `scale = threshold / (2^(bit_length-1) - 1)` from the
`"<argument>0_threshold"` attribute, attaches a uniformly filled scale
vector of length `weight_dims[1]`, sets `enable_int8` and `bit_length`, and
converts the weight to int8 in place by rounded division by the scale,
mutating only the existing operator node: the node count is unchanged and
every other node survives untouched. -/
theorem C6_dynamic_quant
    (input_argname : String) (g : Graph) (scope : Scope) (m : DynamicQuantMatch)
    (weight_name : String) (t : Tensor) (oi : OpInfo) (b : Int) (τ : ℚ)
    (hw : (g.findNode m.weight_node).bind Node.varName? = some weight_name)
    (ht : scope.findVar weight_name = some t)
    (hop : (g.findNode m.op_node).bind Node.opInfo? = some oi)
    (hb : oi.getAttrInt "bit_length" = some b)
    (hτ : oi.getAttrFloat (input_argname ++ "0_threshold") = some τ) :
    (t.dims.length ≠ 2 →
      DynamicQuantOpFuser.InsertNewNode input_argname g scope m = .error .invariantViolation) ∧
    (∀ d0 d1 : Int, t.dims = [d0, d1] →
      ∃ g' scope',
        DynamicQuantOpFuser.InsertNewNode input_argname g scope m = .ok (g', scope') ∧
        g'.nodes.length = g.nodes.length ∧
        (∀ n ∈ g.nodes, n.id ≠ m.op_node → n ∈ g'.nodes) ∧
        (∀ n ∈ g.nodes, n.id = m.op_node → ∀ info0, n.kind = .opK info0 →
          ∃ n', n' ∈ g'.nodes ∧ n'.id = m.op_node ∧
            ∃ info', n'.kind = .opK info' ∧
              info'.getAttr "enable_int8" = some (.aBool true) ∧
              info'.getAttrInt "bit_length" = some b ∧
              info'.getInputScale weight_name = some (List.replicate d1.toNat
                (τ / ((2 ^ (b - 1).toNat - 1 : Int) : ℚ)))) ∧
        scope'.findVar weight_name = some
          { t with
            data := t.data.map (fun x =>
              ((quantRound (τ / ((2 ^ (b - 1).toNat - 1 : Int) : ℚ)) x : ℤ) : ℚ))
            persistable := true
            precision := .kInt8 }) := by
  constructor
  · intro hlen
    simp only [DynamicQuantOpFuser.InsertNewNode, hw, ht, ofOption_some, ok_bind,
      if_neg hlen]
  · intro d0 d1 hdims
    have hlen : t.dims.length = 2 := by rw [hdims]; rfl
    have hred : DynamicQuantOpFuser.InsertNewNode input_argname g scope m
        = .ok (g.updateNode m.op_node (Node.mapOp (fun _ =>
            ((oi.setAttr "enable_int8" (.aBool true)).setAttr "bit_length"
              (.aInt b)).setInputScale weight_name
              (List.replicate (t.dims.getD 1 0).toNat (τ / (intRange b : ℚ))))),
          scope.setVar weight_name
            { t with
              data := t.data.map (fun x => ((quantRound (τ / (intRange b : ℚ)) x : ℤ) : ℚ))
              persistable := true
              precision := .kInt8 }) := by
      simp only [DynamicQuantOpFuser.InsertNewNode, hw, ht, hop, hb, hτ,
        ofOption_some, ok_bind, pure_eq_ok, if_pos hlen]
    refine ⟨_, _, hred, ?_, ?_, ?_, ?_⟩
    · simp [Graph.updateNode]
    · intro n hn hne
      exact List.mem_map.mpr ⟨n, hn, by rw [if_neg hne]⟩
    · intro n hn hid info0 hkind
      refine ⟨Node.mapOp (fun _ =>
        ((oi.setAttr "enable_int8" (.aBool true)).setAttr "bit_length"
          (.aInt b)).setInputScale weight_name
          (List.replicate (t.dims.getD 1 0).toNat (τ / (intRange b : ℚ)))) n, ?_, ?_, ?_⟩
      · exact List.mem_map.mpr ⟨n, hn, by rw [if_pos hid]⟩
      · rw [Node.mapOp_pres_id, hid]
      · refine ⟨((oi.setAttr "enable_int8" (.aBool true)).setAttr "bit_length"
            (.aInt b)).setInputScale weight_name
            (List.replicate (t.dims.getD 1 0).toNat (τ / (intRange b : ℚ))), ?_, ?_, ?_, ?_⟩
        · rw [Node.mapOp_opK _ n info0 hkind]
        · simp [OpInfo.setInputScale, OpInfo.setAttr, OpInfo.getAttr, lookup]
        · simp [OpInfo.setInputScale, OpInfo.setAttr, OpInfo.getAttrInt, OpInfo.getAttr, lookup]
        · rw [hdims]
          simp [OpInfo.setInputScale, OpInfo.setAttr, OpInfo.getInputScale, lookup, intRange]
    · simp [Scope.setVar, Scope.findVar, lookup, intRange]

def C6oinfo : OpInfo :=
  ⟨"mul", [("X", ["x"]), ("Y", ["w"])], [("Out", ["o"])],
    [("quantization_type", .aString "post_weight_abs_max"), ("bit_length", .aInt 8),
      ("Y0_threshold", .aFloat 5)], []⟩

def C6g : Graph :=
  ⟨[⟨0, .varK "w" true⟩, ⟨1, .opK C6oinfo⟩], [(0, 1)]⟩

def C6t : Tensor := ⟨[10, 20], [254, -127], true, .kFloat⟩

def C6m : DynamicQuantMatch := ⟨1, 0⟩

theorem C6_dynamic_quant_witness :
    ((C6t.dims.length ≠ 2 →
      DynamicQuantOpFuser.InsertNewNode "Y" C6g [("w", C6t)] C6m = .error .invariantViolation) ∧
    (∀ d0 d1 : Int, C6t.dims = [d0, d1] →
      ∃ g' scope',
        DynamicQuantOpFuser.InsertNewNode "Y" C6g [("w", C6t)] C6m = .ok (g', scope') ∧
        g'.nodes.length = C6g.nodes.length ∧
        (∀ n ∈ C6g.nodes, n.id ≠ C6m.op_node → n ∈ g'.nodes) ∧
        (∀ n ∈ C6g.nodes, n.id = C6m.op_node → ∀ info0, n.kind = .opK info0 →
          ∃ n', n' ∈ g'.nodes ∧ n'.id = C6m.op_node ∧
            ∃ info', n'.kind = .opK info' ∧
              info'.getAttr "enable_int8" = some (.aBool true) ∧
              info'.getAttrInt "bit_length" = some 8 ∧
              info'.getInputScale "w" = some (List.replicate d1.toNat
                ((5 : ℚ) / ((2 ^ ((8 : Int) - 1).toNat - 1 : Int) : ℚ)))) ∧
        scope'.findVar "w" = some
          { C6t with
            data := C6t.data.map (fun x =>
              ((quantRound ((5 : ℚ) / ((2 ^ ((8 : Int) - 1).toNat - 1 : Int) : ℚ)) x : ℤ) : ℚ))
            persistable := true
            precision := .kInt8 })) :=
  C6_dynamic_quant "Y" C6g [("w", C6t)] C6m "w" C6t C6oinfo 8 5 rfl rfl rfl rfl rfl

/-! ### QuantDequantOpFuser: consumer-loop characterization -/

theorem QuantizeTensorInPlace_dims (t : Tensor) (s : ℚ) :
    (QuantizeTensorInPlace t s).dims = t.dims := rfl

theorem Node.mapOp_opInfo? (f : OpInfo → OpInfo) (n : Node) :
    (Node.mapOp f n).opInfo? = n.opInfo?.map f := by
  cases hk : n.kind <;> simp [Node.mapOp, Node.opInfo?, hk]

theorem findNodeIn_map_pres (u : Node → Node) (hu : ∀ n, (u n).id = n.id) (x : Nat) :
    ∀ ns : List Node, findNodeIn (ns.map u) x = (findNodeIn ns x).map u := by
  intro ns
  induction ns with
  | nil => rfl
  | cons n rest ih =>
      simp only [List.map_cons, findNodeIn, hu]
      by_cases h : n.id = x
      · rw [if_pos h, if_pos h]
        rfl
      · rw [if_neg h, if_neg h]
        exact ih

theorem qdConsumerInfoUpdate_type (w : Bool) (iname oname : String) (b : Int) (s : ℚ)
    (dims : List Int) (info : OpInfo) :
    (qdConsumerInfoUpdate w iname oname b s dims info).type = info.type := by
  cases w with
  | false =>
      simp [qdConsumerInfoUpdate, OpInfo.setAttr, OpInfo.setInputScale, OpInfo.updateAllInputs]
  | true =>
      by_cases h : info.type ∈ quantizedOpTypesForInt8 <;>
        simp [qdConsumerInfoUpdate, h, OpInfo.setAttr, OpInfo.setInputScale,
          OpInfo.updateAllInputs]

theorem qdQualifies_expr (g : Graph) (cid : Nat) :
    qdQualifies g cid = (((g.findNode cid).bind Node.opInfo?).map
      (fun info => decide (info.type ∈ quantizedOpTypesForInt8))).getD false := by
  unfold qdQualifies
  cases h : (g.findNode cid).bind Node.opInfo? <;> rfl

theorem qdQualifies_after_update (g : Graph) (cid : Nat) (f : OpInfo → OpInfo)
    (hf : ∀ info, (f info).type = info.type) (E : List (Nat × Nat)) (x : Nat) :
    qdQualifies ⟨g.nodes.map (fun n => if n.id = cid then Node.mapOp f n else n), E⟩ x
      = qdQualifies g x := by
  rw [qdQualifies_expr, qdQualifies_expr]
  have hfm := findNodeIn_map_pres (fun n => if n.id = cid then Node.mapOp f n else n)
      (fun n => by by_cases h : n.id = cid <;> simp [h, Node.mapOp_pres_id]) x g.nodes
  show (((findNodeIn (g.nodes.map fun n => if n.id = cid then Node.mapOp f n else n) x).bind
      Node.opInfo?).map (fun info => decide (info.type ∈ quantizedOpTypesForInt8))).getD false
    = (((findNodeIn g.nodes x).bind Node.opInfo?).map
      (fun info => decide (info.type ∈ quantizedOpTypesForInt8))).getD false
  rw [hfm]
  cases hfind : findNodeIn g.nodes x with
  | none => rfl
  | some n =>
      show (((Node.opInfo? (if n.id = cid then Node.mapOp f n else n))).map
          (fun info => decide (info.type ∈ quantizedOpTypesForInt8))).getD false
        = ((n.opInfo?.map (fun info => decide (info.type ∈ quantizedOpTypesForInt8)))).getD false
      by_cases h : n.id = cid
      · rw [if_pos h, Node.mapOp_opInfo?]
        cases hop : n.opInfo? with
        | none => rfl
        | some i => simp [hf]
      · rw [if_neg h]

theorem qd_weight_fold (iname oname : String) (b : Int) (scale : ℚ) (in_id : Nat) :
    ∀ (l : List Nat) (g : Graph) (scope : Scope) (t : Tensor),
    l.Nodup → scope.findVar iname = some t →
    ((l.foldl (qdConsumerStep true iname oname b scale in_id) (g, scope)).2.findVar iname
        = some (quantIter scale (l.countP (fun c => qdQualifies g c)) t)) ∧
    (l.foldl (qdConsumerStep true iname oname b scale in_id) (g, scope)).1.nodes
        = g.nodes.map (fun n => if n.id ∈ l then
            Node.mapOp (qdConsumerInfoUpdate true iname oname b scale t.dims) n else n) := by
  intro l
  induction l with
  | nil =>
      intro g scope t _ h
      refine ⟨?_, ?_⟩
      · simpa [quantIter] using h
      · simp
  | cons c rest ih =>
      intro g scope t hnd h
      have hc : c ∉ rest := (List.nodup_cons.mp hnd).1
      have hrest : rest.Nodup := (List.nodup_cons.mp hnd).2
      have hstep : qdConsumerStep true iname oname b scale in_id (g, scope) c
          = ((g.updateNode c (Node.mapOp (qdConsumerInfoUpdate true iname oname b scale
              t.dims))).addEdge in_id c,
            if qdQualifies g c then scope.setVar iname (QuantizeTensorInPlace t scale)
            else scope) := by
        simp [qdConsumerStep, h]
      have hS1 : (if qdQualifies g c then scope.setVar iname (QuantizeTensorInPlace t scale)
          else scope).findVar iname
          = some (if qdQualifies g c then QuantizeTensorInPlace t scale else t) := by
        by_cases hq : qdQualifies g c
        · simp [hq, Scope.setVar, Scope.findVar, lookup]
        · simp [hq, h]
      have ht1dims : (if qdQualifies g c then QuantizeTensorInPlace t scale else t).dims
          = t.dims := by
        by_cases hq : qdQualifies g c <;> simp [hq, QuantizeTensorInPlace]
      obtain ⟨ih1, ih2⟩ := ih
        ((g.updateNode c (Node.mapOp (qdConsumerInfoUpdate true iname oname b scale
          t.dims))).addEdge in_id c)
        (if qdQualifies g c then scope.setVar iname (QuantizeTensorInPlace t scale) else scope)
        (if qdQualifies g c then QuantizeTensorInPlace t scale else t)
        hrest hS1
      have hinv : ∀ x, qdQualifies
          ((g.updateNode c (Node.mapOp (qdConsumerInfoUpdate true iname oname b scale
            t.dims))).addEdge in_id c) x = qdQualifies g x := by
        intro x
        exact qdQualifies_after_update g c _
          (fun info => qdConsumerInfoUpdate_type true iname oname b scale t.dims info)
          (g.edges ++ [(in_id, c)]) x
      rw [List.foldl_cons, hstep]
      constructor
      · rw [ih1]
        have hcnt : rest.countP (fun x => qdQualifies
            ((g.updateNode c (Node.mapOp (qdConsumerInfoUpdate true iname oname b scale
              t.dims))).addEdge in_id c) x) = rest.countP (fun x => qdQualifies g x) := by
          apply List.countP_congr
          intro x _
          rw [hinv x]
        rw [hcnt, List.countP_cons]
        by_cases hq : qdQualifies g c
        · rw [if_pos hq]
          simp only [hq, if_true, if_pos]
          rfl
        · rw [if_neg hq]
          simp only [hq]
          rfl
      · rw [ih2, ht1dims]
        have hn : ((g.updateNode c (Node.mapOp (qdConsumerInfoUpdate true iname oname b scale
            t.dims))).addEdge in_id c).nodes
            = g.nodes.map (fun n => if n.id = c then
                Node.mapOp (qdConsumerInfoUpdate true iname oname b scale t.dims) n else n) := rfl
        rw [hn]
        exact map_update_step _ (Node.mapOp_pres_id _) c rest hc g.nodes

/-- Shared reduction of `QuantDequantOpFuser::InsertNewNode` on a weight
input with the abs-max subtype: the consumer loop's node updates and the
per-qualifying-consumer repetition of `QuantizeTensorInPlace`. -/
theorem qd_weight_rewrite
    (g : Graph) (scope : Scope) (m : QDMatch)
    (iname oname : String) (t : Tensor) (qdi : OpInfo) (b : Int) (τ : ℚ)
    (hi : (g.findNode m.input_var_node).bind Node.varName? = some iname)
    (ho : (g.findNode m.output_var_node).bind Node.varName? = some oname)
    (hwflag : (g.findNode m.input_var_node).bind Node.isWeight? = some true)
    (ht : scope.findVar iname = some t)
    (hmax : FindAbsMax t.data = some τ)
    (hqd : (g.findNode m.quant_dequant_node).bind Node.opInfo? = some qdi)
    (hb : qdi.getAttrInt "bit_length" = some b)
    (hcons : (g.outlinks m.output_var_node).Nodup) :
    ∃ g' scope',
      QuantDequantOpFuser.InsertNewNode "fake_quantize_dequantize_abs_max" g scope m
        = .ok (g', scope') ∧
      g'.nodes = removeNodesList [m.quant_dequant_node, m.output_scale_node, m.output_var_node]
        (g.nodes.map (fun n => if n.id ∈ g.outlinks m.output_var_node then
          Node.mapOp (qdConsumerInfoUpdate true iname oname b (τ / (intRange b : ℚ)) t.dims) n
          else n)) ∧
      scope'.findVar iname = some (quantIter (τ / (intRange b : ℚ))
        ((g.outlinks m.output_var_node).countP (fun c => qdQualifies g c)) t) := by
  have hthr : qdThreshold "fake_quantize_dequantize_abs_max" true t g scope m.output_scale_node
      = .ok τ := by
    simp [qdThreshold, hmax]
  have hred : QuantDequantOpFuser.InsertNewNode "fake_quantize_dequantize_abs_max" g scope m
      = .ok ((((g.outlinks m.output_var_node).foldl
            (qdConsumerStep true iname oname b (τ / (intRange b : ℚ)) m.input_var_node)
            (g, scope)).1.removeNodes
          [m.quant_dequant_node, m.output_scale_node, m.output_var_node],
          ((g.outlinks m.output_var_node).foldl
            (qdConsumerStep true iname oname b (τ / (intRange b : ℚ)) m.input_var_node)
            (g, scope)).2)) := by
    simp only [QuantDequantOpFuser.InsertNewNode, hi, ho, hwflag, ht, hthr, hqd, hb,
      ofOption_some, ok_bind, pure_eq_ok]
    rw [if_neg (by decide)]
  obtain ⟨h1, h2⟩ := qd_weight_fold iname oname b (τ / (intRange b : ℚ)) m.input_var_node
    (g.outlinks m.output_var_node) g scope t hcons ht
  refine ⟨_, _, hred, ?_, h1⟩
  show removeNodesList _ _ = _
  rw [h2]

/-- C3: in `QuantDequantOpFuser`'s rewrite on a weight input, every
consumer receives a scale vector of length equal to the weight's size along
quantization axis 0 for `conv2d`/`depthwise_conv2d` and axis 1 for every
other consumer, uniformly filled with `threshold / (2^(bit_length-1) - 1)`;
exactly the `mul`, `conv2d` and `depthwise_conv2d` consumers additionally
get `enable_int8`, and the stored weight tensor ends up as the
rounded-division int8 conversion applied once per such qualifying consumer
(`quantIter` at the count of qualifying consumers). -/
theorem C3_quant_dequant_weight
    (g : Graph) (scope : Scope) (m : QDMatch)
    (iname oname : String) (t : Tensor) (qdi : OpInfo) (b : Int) (τ : ℚ)
    (hi : (g.findNode m.input_var_node).bind Node.varName? = some iname)
    (ho : (g.findNode m.output_var_node).bind Node.varName? = some oname)
    (hwflag : (g.findNode m.input_var_node).bind Node.isWeight? = some true)
    (ht : scope.findVar iname = some t)
    (hmax : FindAbsMax t.data = some τ)
    (hqd : (g.findNode m.quant_dequant_node).bind Node.opInfo? = some qdi)
    (hb : qdi.getAttrInt "bit_length" = some b)
    (hcons : (g.outlinks m.output_var_node).Nodup) :
    ∃ g' scope',
      QuantDequantOpFuser.InsertNewNode "fake_quantize_dequantize_abs_max" g scope m
        = .ok (g', scope') ∧
      (∀ c ∈ g.outlinks m.output_var_node,
        c ∉ [m.quant_dequant_node, m.output_scale_node, m.output_var_node] →
        ∀ n ∈ g.nodes, n.id = c → ∀ info, n.kind = .opK info →
        ∃ n', n' ∈ g'.nodes ∧ n'.id = c ∧
          ∃ info', n'.kind = .opK info' ∧
            info'.getInputScale iname = some (List.replicate
              (t.dims.getD
                (if info.type = "conv2d" ∨ info.type = "depthwise_conv2d" then 0 else 1)
                0).toNat
              (τ / ((2 ^ (b - 1).toNat - 1 : Int) : ℚ))) ∧
            (info.type ∈ ["mul", "conv2d", "depthwise_conv2d"] →
              info'.getAttr "enable_int8" = some (.aBool true)) ∧
            (info.type ∉ ["mul", "conv2d", "depthwise_conv2d"] →
              info'.getAttr "enable_int8" = info.getAttr "enable_int8")) ∧
      scope'.findVar iname = some (quantIter (τ / ((2 ^ (b - 1).toNat - 1 : Int) : ℚ))
        ((g.outlinks m.output_var_node).countP (fun c => qdQualifies g c)) t) := by
  obtain ⟨g', scope', hok, hnodes, hscope⟩ :=
    qd_weight_rewrite g scope m iname oname t qdi b τ hi ho hwflag ht hmax hqd hb hcons
  refine ⟨g', scope', hok, ?_, hscope⟩
  intro c hc hcnr n hn hid info hkind
  have hmap := Node.mapOp_opK
    (qdConsumerInfoUpdate true iname oname b (τ / (intRange b : ℚ)) t.dims) n info hkind
  refine ⟨Node.mapOp (qdConsumerInfoUpdate true iname oname b (τ / (intRange b : ℚ)) t.dims) n,
    ?_, ?_, ?_⟩
  · rw [hnodes]
    apply removeNodesList_mem
    · exact List.mem_map.mpr ⟨n, hn, by rw [if_pos (by rw [hid]; exact hc)]⟩
    · rw [Node.mapOp_pres_id, hid]
      exact hcnr
  · rw [Node.mapOp_pres_id, hid]
  · refine ⟨qdConsumerInfoUpdate true iname oname b (τ / (intRange b : ℚ)) t.dims info,
      ?_, ?_, ?_, ?_⟩
    · rw [hmap]
    · by_cases hty : info.type = "mul" ∨ info.type = "conv2d" ∨ info.type = "depthwise_conv2d"
      · simp [qdConsumerInfoUpdate, quantizedOpTypesForInt8, hty, OpInfo.setAttr,
          OpInfo.setInputScale, OpInfo.updateAllInputs, OpInfo.getInputScale, lookup,
          quantAxisOf, intRange]
      · simp [qdConsumerInfoUpdate, quantizedOpTypesForInt8, hty, OpInfo.setAttr,
          OpInfo.setInputScale, OpInfo.updateAllInputs, OpInfo.getInputScale, lookup,
          quantAxisOf, intRange]
    · intro hty
      simp only [List.mem_cons, List.not_mem_nil, or_false] at hty
      simp [qdConsumerInfoUpdate, quantizedOpTypesForInt8, hty, OpInfo.setAttr,
        OpInfo.setInputScale, OpInfo.updateAllInputs, OpInfo.getAttr, lookup]
    · intro hty
      simp only [List.mem_cons, List.not_mem_nil, or_false] at hty
      simp [qdConsumerInfoUpdate, quantizedOpTypesForInt8, hty, OpInfo.setAttr,
        OpInfo.setInputScale, OpInfo.updateAllInputs, OpInfo.getAttr, lookup]

def C3t : Tensor := ⟨[4, 3, 3, 3], [2, -1], false, .kFloat⟩

def C3qdinfo : OpInfo :=
  ⟨"fake_quantize_dequantize_abs_max", [("X", ["w"])],
    [("Out", ["wq"]), ("OutScale", ["os"])], [("bit_length", .aInt 8)], []⟩

def C3cinfo : OpInfo :=
  ⟨"conv2d", [("Input", ["x"]), ("Filter", ["wq"])], [("Output", ["y"])], [], []⟩

def C3g : Graph :=
  ⟨[⟨0, .varK "w" true⟩, ⟨1, .opK C3qdinfo⟩, ⟨2, .varK "os" false⟩,
    ⟨3, .varK "wq" false⟩, ⟨4, .opK C3cinfo⟩],
    [(0, 1), (1, 2), (1, 3), (3, 4)]⟩

def C3m : QDMatch := ⟨0, 1, 2, 3, none⟩

theorem C3_quant_dequant_weight_witness :
    ∃ g' scope',
      QuantDequantOpFuser.InsertNewNode "fake_quantize_dequantize_abs_max" C3g
        [("w", C3t)] C3m = .ok (g', scope') ∧
      (∀ c ∈ C3g.outlinks C3m.output_var_node,
        c ∉ [C3m.quant_dequant_node, C3m.output_scale_node, C3m.output_var_node] →
        ∀ n ∈ C3g.nodes, n.id = c → ∀ info, n.kind = .opK info →
        ∃ n', n' ∈ g'.nodes ∧ n'.id = c ∧
          ∃ info', n'.kind = .opK info' ∧
            info'.getInputScale "w" = some (List.replicate
              (C3t.dims.getD
                (if info.type = "conv2d" ∨ info.type = "depthwise_conv2d" then 0 else 1)
                0).toNat
              ((2 : ℚ) / ((2 ^ ((8 : Int) - 1).toNat - 1 : Int) : ℚ))) ∧
            (info.type ∈ ["mul", "conv2d", "depthwise_conv2d"] →
              info'.getAttr "enable_int8" = some (.aBool true)) ∧
            (info.type ∉ ["mul", "conv2d", "depthwise_conv2d"] →
              info'.getAttr "enable_int8" = info.getAttr "enable_int8")) ∧
      scope'.findVar "w" = some (quantIter ((2 : ℚ) / ((2 ^ ((8 : Int) - 1).toNat - 1 : Int) : ℚ))
        ((C3g.outlinks C3m.output_var_node).countP (fun c => qdQualifies C3g c)) C3t) :=
  C3_quant_dequant_weight C3g [("w", C3t)] C3m "w" "wq" C3t C3qdinfo 8 2
    rfl rfl rfl rfl (by decide) rfl rfl (by decide)

/-- C7: `QuantDequantOpFuser`'s rewrite fails fatally with an invariant
violation when a weight input meets a subtype other than the abs-max
variant, or an activation input meets a subtype other than the
moving-average-abs-max variant; when the check passes the threshold is
`max(|weight values|)` (via `FindAbsMax`) for a weight and the scalar read
from the output-scale tensor for an activation. -/
theorem C7_quant_dequant_checks
    (qd_type : String) (g : Graph) (scope : Scope) (m : QDMatch)
    (iname oname : String) (w : Bool) (t : Tensor)
    (hi : (g.findNode m.input_var_node).bind Node.varName? = some iname)
    (ho : (g.findNode m.output_var_node).bind Node.varName? = some oname)
    (hwflag : (g.findNode m.input_var_node).bind Node.isWeight? = some w)
    (ht : scope.findVar iname = some t) :
    (w = true → qd_type ≠ "fake_quantize_dequantize_abs_max" →
      QuantDequantOpFuser.InsertNewNode qd_type g scope m = .error .invariantViolation) ∧
    (w = false → qd_type ≠ "fake_quantize_dequantize_moving_average_abs_max" →
      QuantDequantOpFuser.InsertNewNode qd_type g scope m = .error .invariantViolation) ∧
    (∀ τ, FindAbsMax t.data = some τ →
      qdThreshold "fake_quantize_dequantize_abs_max" true t g scope m.output_scale_node
        = .ok τ) ∧
    (∀ osname st S rest, (g.findNode m.output_scale_node).bind Node.varName? = some osname →
      scope.findVar osname = some st → st.data = S :: rest →
      qdThreshold "fake_quantize_dequantize_moving_average_abs_max" false t g scope
        m.output_scale_node = .ok S) := by
  refine ⟨?_, ?_, ?_, ?_⟩
  · intro hw hne
    subst hw
    have hthr : qdThreshold qd_type true t g scope m.output_scale_node
        = .error .invariantViolation := by
      simp [qdThreshold, hne]
    simp only [QuantDequantOpFuser.InsertNewNode, hi, ho, hwflag, ht, hthr,
      ofOption_some, ok_bind, error_bind]
  · intro hw hne
    subst hw
    have hthr : qdThreshold qd_type false t g scope m.output_scale_node
        = .error .invariantViolation := by
      simp [qdThreshold, hne]
    simp only [QuantDequantOpFuser.InsertNewNode, hi, ho, hwflag, ht, hthr,
      ofOption_some, ok_bind, error_bind]
  · intro τ hmax
    simp [qdThreshold, hmax]
  · intro osname st S rest hosn hst hdata
    simp [qdThreshold, hosn, hst, hdata]

theorem C7_quant_dequant_checks_witness :
    (true = true → "bogus_type" ≠ "fake_quantize_dequantize_abs_max" →
      QuantDequantOpFuser.InsertNewNode "bogus_type" C3g [("w", C3t)] C3m
        = .error .invariantViolation) ∧
    (true = false → "bogus_type" ≠ "fake_quantize_dequantize_moving_average_abs_max" →
      QuantDequantOpFuser.InsertNewNode "bogus_type" C3g [("w", C3t)] C3m
        = .error .invariantViolation) ∧
    (∀ τ, FindAbsMax C3t.data = some τ →
      qdThreshold "fake_quantize_dequantize_abs_max" true C3t C3g [("w", C3t)]
        C3m.output_scale_node = .ok τ) ∧
    (∀ osname st S rest,
      (C3g.findNode C3m.output_scale_node).bind Node.varName? = some osname →
      Scope.findVar [("w", C3t)] osname = some st → st.data = S :: rest →
      qdThreshold "fake_quantize_dequantize_moving_average_abs_max" false C3t C3g
        [("w", C3t)] C3m.output_scale_node = .ok S) :=
  C7_quant_dequant_checks "bogus_type" C3g [("w", C3t)] C3m "w" "wq" true C3t
    rfl rfl rfl rfl

/-- C9: on a weight input, the in-place rounded int8 conversion runs once
per consumer of type `mul`, `conv2d` or `depthwise_conv2d`: the final
stored tensor is `quantIter` at the number of such consumers, so for two
qualifying consumers the buffer is double-converted, which differs from the
single conversion (witnessed by data `[4]` with scale `2`). -/
theorem C9_quant_dequant_repeated
    (g : Graph) (scope : Scope) (m : QDMatch)
    (iname oname : String) (t : Tensor) (qdi : OpInfo) (b : Int) (τ : ℚ)
    (hi : (g.findNode m.input_var_node).bind Node.varName? = some iname)
    (ho : (g.findNode m.output_var_node).bind Node.varName? = some oname)
    (hwflag : (g.findNode m.input_var_node).bind Node.isWeight? = some true)
    (ht : scope.findVar iname = some t)
    (hmax : FindAbsMax t.data = some τ)
    (hqd : (g.findNode m.quant_dequant_node).bind Node.opInfo? = some qdi)
    (hb : qdi.getAttrInt "bit_length" = some b)
    (hcons : (g.outlinks m.output_var_node).Nodup) :
    (∃ g' scope',
      QuantDequantOpFuser.InsertNewNode "fake_quantize_dequantize_abs_max" g scope m
        = .ok (g', scope') ∧
      scope'.findVar iname = some (quantIter (τ / ((2 ^ (b - 1).toNat - 1 : Int) : ℚ))
        ((g.outlinks m.output_var_node).countP (fun c => qdQualifies g c)) t)) ∧
    quantIter 2 2 ⟨[1], [4], false, .kFloat⟩ ≠ quantIter 2 1 ⟨[1], [4], false, .kFloat⟩ := by
  constructor
  · obtain ⟨g', scope', hok, _, hscope⟩ :=
      qd_weight_rewrite g scope m iname oname t qdi b τ hi ho hwflag ht hmax hqd hb hcons
    exact ⟨g', scope', hok, hscope⟩
  · have h1 : quantRound 2 4 = 2 := by norm_num [quantRound]
    have h2 : quantRound 2 2 = 1 := by norm_num [quantRound]
    simp [quantIter, QuantizeTensorInPlace, h1, h2]

theorem C9_quant_dequant_repeated_witness :
    (∃ g' scope',
      QuantDequantOpFuser.InsertNewNode "fake_quantize_dequantize_abs_max" C3g
        [("w", C3t)] C3m = .ok (g', scope') ∧
      scope'.findVar "w" = some (quantIter ((2 : ℚ) / ((2 ^ ((8 : Int) - 1).toNat - 1 : Int) : ℚ))
        ((C3g.outlinks C3m.output_var_node).countP (fun c => qdQualifies C3g c)) C3t)) ∧
    quantIter 2 2 ⟨[1], [4], false, .kFloat⟩ ≠ quantIter 2 1 ⟨[1], [4], false, .kFloat⟩ :=
  C9_quant_dequant_repeated C3g [("w", C3t)] C3m "w" "wq" C3t C3qdinfo 8 2
    rfl rfl rfl rfl (by decide) rfl rfl (by decide)

theorem C10_FindAbsMax_witness :
    ∃ m, FindAbsMax [(3 : ℚ), -5, 2] = some m ∧
      (∀ x ∈ [(3 : ℚ), -5, 2], |x| ≤ m) ∧ ∃ x ∈ [(3 : ℚ), -5, 2], |x| = m :=
  (C10_FindAbsMax [3, -5, 2]).1 (by decide)

end QDF
